import Mathlib

/-!
Verification of the note-taking / partner-pairing backend
(`src/backend/main.py`) against its natural-language specification.

The five Flask handlers (`add_user`, `get_partner`, `request_partner`,
`list_notes`, `add_note`) are embedded as pure Lean functions over an
explicit datastore state.  The NDB datastore is modelled as four lists of
records plus a logical clock `time` that stamps every `put` (standing in
for the `auto_now_add` creation timestamps, which strictly increase across
successive writes of one request sequence).  Queries without an explicit
order return the first match in list order; the ordered note query sorts
by the stamped creation time, descending.

Token verification (`google.oauth2.id_token.verify_firebase_token`) is an
external library, not code of this repository; following the spec's
Token-Verifier contract (section 4.1: it yields a claims record
{subject id, email, name} on success and fails otherwise) it is modelled
as an arbitrary function `String → Option Claims` passed to each handler,
`none` standing for the falsy-claims outcome the handlers test with
`if not claims`.

A Python `KeyError`/`AttributeError` escaping a handler is caught by the
Flask error handler at the bottom of `main.py` and surfaces as a 500 with
body "An internal error occurred."; the embedding returns that response
together with the datastore as it stood when the exception was raised.
Request bodies are modelled by the field the handler extracts
(`Option String`, `none` when the body is absent, non-JSON, or lacks the
field, in which case the subscript raises and the 500 path is taken).
-/

/-- The decoded, verified payload of an identity token.  `sub` is always
present in a verified token; `name` and `email` may be absent (the code
guards their absence only in `add_note`, via `claims.get`). -/
structure Claims where
  sub : String
  email : Option String
  name : Option String
deriving Repr, DecidableEq

/-- NDB model `Note` (`main.py` lines 35-42): keyed under an ancestor key
that is the owning user's subject id, modelled as the `owner` field. -/
structure NoteRec where
  owner : String
  friendly_id : String
  message : String
  created : Nat
deriving Repr, DecidableEq

/-- NDB model `PartnerRequest` (`main.py` lines 45-49). -/
structure PartnerRequestRec where
  asker : String
  receiver : String
  created : Nat
deriving Repr, DecidableEq

/-- NDB model `Relationship` (`main.py` lines 51-55). -/
structure RelationshipRec where
  partner1 : String
  partner2 : String
  created : Nat
deriving Repr, DecidableEq

/-- NDB model `User` (`main.py` lines 57-62). -/
structure UserRec where
  name : String
  email : String
  uid : String
  created : Nat
deriving Repr, DecidableEq

/-- The datastore: one list per entity kind, in insertion order, plus the
logical clock stamping each `put`. -/
structure Datastore where
  users : List UserRec
  notes : List NoteRec
  partnerRequests : List PartnerRequestRec
  relationships : List RelationshipRec
  time : Nat
deriving Repr, DecidableEq

/-- JSON note record returned by `query_database` (lines 79-83). -/
structure NoteMsg where
  friendly_id : String
  message : String
  created : Nat
deriving Repr, DecidableEq

/-- An HTTP response body: a literal string, the JSON array of notes from
`jsonify(notes)`, or the JSON partner object from `get_partner`. -/
inductive Body where
  | text : String → Body
  | jsonNotes : List NoteMsg → Body
  | jsonPartner : (email name uid : String) → Body
deriving Repr, DecidableEq

/-- An HTTP response: status code and body. -/
structure Response where
  status : Nat
  body : Body
deriving Repr, DecidableEq

/-- Split a character list at every character satisfying `p`, keeping
empty fields, so that the empty list splits to `[[]]`. -/
def splitPred (p : Char → Bool) : List Char → List (List Char)
  | [] => [[]]
  | c :: cs =>
    match splitPred p cs, p c with
    | rest, true => [] :: rest
    | t :: ts, false => (c :: t) :: ts
    | [], false => [[c]]

/-- Python's `s.split(' ')` on the character list: split at every
occurrence of `sep`, keeping empty fields, so that `''.split(' ') = ['']`. -/
def splitChar (sep : Char) (l : List Char) : List (List Char) :=
  splitPred (fun c => c == sep) l

/-- `request.headers['Authorization'].split(' ').pop()` (lines 91, 110,
137, 170, 195): the last field after splitting the header value on single
space characters. -/
def extractToken (authHeader : String) : String :=
  ⟨(splitChar ' ' authHeader.data).getLastD []⟩

/-- The catch-all Flask 500 error handler (`main.py` lines 221-225),
paired with the datastore as it stood when the exception escaped. -/
def serverError (db : Datastore) : Response × Datastore :=
  (⟨500, Body.text "An internal error occurred."⟩, db)

/-- Handler `add_user` (`main.py` lines 88-103). -/
def add_user (verify : String → Option Claims) (authHeader : String)
    (db : Datastore) : Response × Datastore :=
  let id_token := extractToken authHeader
  match verify id_token with
  | none => (⟨401, Body.text "Unauthorized"⟩, db)
  | some claims =>
    match db.users.find? (fun u => u.uid == claims.sub) with
    | some _ => (⟨200, Body.text "Added user"⟩, db)
    | none =>
      match claims.name, claims.email with
      | some nm, some em =>
        let new_user : UserRec := ⟨nm, em, claims.sub, db.time⟩
        (⟨200, Body.text "Added user"⟩,
         { db with users := db.users ++ [new_user], time := db.time + 1 })
      | _, _ => serverError db

/-- Handler `get_partner` (`main.py` lines 107-131). -/
def get_partner (verify : String → Option Claims) (authHeader : String)
    (db : Datastore) : Response × Datastore :=
  let id_token := extractToken authHeader
  match verify id_token with
  | none => (⟨401, Body.text "Unauthorized"⟩, db)
  | some claims =>
    match claims.email with
    | none => serverError db
    | some cemail =>
      match db.relationships.find?
          (fun r => r.partner1 == cemail || r.partner2 == cemail) with
      | none => (⟨200, Body.text ""⟩, db)
      | some relationship =>
        let partner_email :=
          if relationship.partner1 ≠ cemail then relationship.partner1
          else relationship.partner2
        match db.users.find? (fun u => u.email == partner_email) with
        | none => serverError db
        | some partner =>
          (⟨200, Body.jsonPartner partner.email partner.name partner.uid⟩, db)

/-- Handler `request_partner` (`main.py` lines 134-161).  `partnerField`
is the `'partner'` field of the JSON body, `none` when absent. -/
def request_partner (verify : String → Option Claims) (authHeader : String)
    (partnerField : Option String) (db : Datastore) : Response × Datastore :=
  let id_token := extractToken authHeader
  match verify id_token with
  | none => (⟨401, Body.text "Unauthorized"⟩, db)
  | some claims =>
    match partnerField with
    | none => serverError db
    | some email =>
      match db.users.find? (fun u => u.email == email) with
      | none => (⟨428, Body.text "Nonexistent partner"⟩, db)
      | some _ =>
        match claims.email with
        | none => serverError db
        | some cemail =>
          let db1 : Datastore := { db with
            partnerRequests :=
              db.partnerRequests ++ [⟨cemail, email, db.time⟩],
            time := db.time + 1 }
          match db1.partnerRequests.find?
              (fun pr => pr.asker == email && pr.receiver == cemail) with
          | none => (⟨200, Body.text "OK"⟩, db1)
          | some _ =>
            let partner1 := if email ≤ cemail then email else cemail
            let partner2 := if email ≤ cemail then cemail else email
            (⟨200, Body.text "OK"⟩,
             { db1 with
               relationships :=
                 db1.relationships ++ [⟨partner1, partner2, db1.time⟩],
               time := db1.time + 1 })

/-- Descending-creation-time order on notes, the `-Note.created` sort key
of `query_database`. -/
def createdGe (a b : NoteRec) : Prop := b.created ≤ a.created

instance : DecidableRel createdGe := fun a b => Nat.decLe b.created a.created

/-- `query_database` (`main.py` lines 66-86): all notes under the ancestor
key `user_id`, ordered by creation time with the most recent first, mapped
to their JSON form. -/
def query_database (db : Datastore) (user_id : String) : List NoteMsg :=
  let notes :=
    List.insertionSort createdGe (db.notes.filter (fun n => n.owner == user_id))
  notes.map (fun n => ⟨n.friendly_id, n.message, n.created⟩)

/-- Handler `list_notes` (`main.py` lines 164-179). -/
def list_notes (verify : String → Option Claims) (authHeader : String)
    (db : Datastore) : Response × Datastore :=
  let id_token := extractToken authHeader
  match verify id_token with
  | none => (⟨401, Body.text "Unauthorized"⟩, db)
  | some claims =>
    (⟨200, Body.jsonNotes (query_database db claims.sub)⟩, db)

/-- Handler `add_note` (`main.py` lines 184-217).  `messageField` is the
`'message'` field of the JSON body, `none` when absent. -/
def add_note (verify : String → Option Claims) (authHeader : String)
    (messageField : Option String) (db : Datastore) : Response × Datastore :=
  let id_token := extractToken authHeader
  match verify id_token with
  | none => (⟨401, Body.text "Unauthorized"⟩, db)
  | some claims =>
    match messageField with
    | none => serverError db
    | some msg =>
      let friendly_id := claims.name.getD (claims.email.getD "Unknown")
      let note : NoteRec := ⟨claims.sub, friendly_id, msg, db.time⟩
      (⟨200, Body.text "OK"⟩,
       { db with notes := db.notes ++ [note], time := db.time + 1 })

/-- The last whitespace-separated token of a string, following the spec's
words "only the last whitespace-separated token is used": split at every
whitespace character and take the last nonempty field. -/
def lastWhitespaceToken (s : String) : String :=
  ⟨((splitPred (fun c => c.isWhitespace) s.data).filter (fun t => t ≠ [])).getLastD []⟩

/-- Iterated `add_user`: `addUserN verify h n db` is the datastore after
`n` successive calls of the handler with the same header. -/
def addUserN (verify : String → Option Claims) (authHeader : String) :
    Nat → Datastore → Datastore
  | 0, db => db
  | n + 1, db => (add_user verify authHeader (addUserN verify authHeader n db)).2

/-! ### Helper lemmas -/

theorem addUser_existing_unchanged (verify : String → Option Claims)
    (authHeader : String) (db : Datastore) (c : Claims)
    (hv : verify (extractToken authHeader) = some c)
    (hex : ∃ u ∈ db.users, u.uid = c.sub) :
    add_user verify authHeader db = (⟨200, Body.text "Added user"⟩, db) := by
  obtain ⟨u, hu, huid⟩ := hex
  have hsome : (db.users.find? (fun u => u.uid == c.sub)).isSome :=
    List.find?_isSome.mpr ⟨u, hu, by simp [huid]⟩
  obtain ⟨u', hfind⟩ := Option.isSome_iff_exists.mp hsome
  simp [add_user, hv, hfind]

theorem addUser_fresh (verify : String → Option Claims)
    (authHeader : String) (db : Datastore) (c : Claims) (nm em : String)
    (hv : verify (extractToken authHeader) = some c)
    (hn : c.name = some nm) (he : c.email = some em)
    (h0 : ∀ u ∈ db.users, u.uid ≠ c.sub) :
    add_user verify authHeader db =
      (⟨200, Body.text "Added user"⟩,
       { db with users := db.users ++ [⟨nm, em, c.sub, db.time⟩],
                 time := db.time + 1 }) := by
  have hfind : db.users.find? (fun u => u.uid == c.sub) = none :=
    List.find?_eq_none.mpr (fun u hu => by simp [h0 u hu])
  simp [add_user, hv, hfind, hn, he]

/-! ### Claim theorems -/

/-- C1: on every endpoint (add-user, get-partner, request-partner,
list-notes, add-note), when the bearer token does not verify to a valid
claims record the handler returns status 401 with body exactly
"Unauthorized" and leaves the datastore unchanged (no User, Note,
PartnerRequest, or Relationship is created). -/
theorem all_endpoints_unauthorized (verify : String → Option Claims)
    (authHeader : String) (partnerField messageField : Option String)
    (db : Datastore)
    (hv : verify (extractToken authHeader) = none) :
    add_user verify authHeader db = (⟨401, Body.text "Unauthorized"⟩, db) ∧
    get_partner verify authHeader db = (⟨401, Body.text "Unauthorized"⟩, db) ∧
    request_partner verify authHeader partnerField db =
      (⟨401, Body.text "Unauthorized"⟩, db) ∧
    list_notes verify authHeader db = (⟨401, Body.text "Unauthorized"⟩, db) ∧
    add_note verify authHeader messageField db =
      (⟨401, Body.text "Unauthorized"⟩, db) := by
  refine ⟨?_, ?_, ?_, ?_, ?_⟩ <;>
    simp [add_user, get_partner, request_partner, list_notes, add_note, hv]

/-- C1: witness at a concrete rejecting verifier, header and datastore. -/
theorem all_endpoints_unauthorized_witness :
    add_user (fun _ => none) "Bearer TOK" ⟨[], [], [], [], 0⟩ =
      (⟨401, Body.text "Unauthorized"⟩, ⟨[], [], [], [], 0⟩) ∧
    get_partner (fun _ => none) "Bearer TOK" ⟨[], [], [], [], 0⟩ =
      (⟨401, Body.text "Unauthorized"⟩, ⟨[], [], [], [], 0⟩) ∧
    request_partner (fun _ => none) "Bearer TOK" (some "bob@x")
        ⟨[], [], [], [], 0⟩ =
      (⟨401, Body.text "Unauthorized"⟩, ⟨[], [], [], [], 0⟩) ∧
    list_notes (fun _ => none) "Bearer TOK" ⟨[], [], [], [], 0⟩ =
      (⟨401, Body.text "Unauthorized"⟩, ⟨[], [], [], [], 0⟩) ∧
    add_note (fun _ => none) "Bearer TOK" (some "hi") ⟨[], [], [], [], 0⟩ =
      (⟨401, Body.text "Unauthorized"⟩, ⟨[], [], [], [], 0⟩) :=
  all_endpoints_unauthorized (fun _ => none) "Bearer TOK" (some "bob@x")
    (some "hi") ⟨[], [], [], [], 0⟩ rfl

/-- C4: an authenticated request-partner call naming an email for which no
User record exists returns status 428 with body "Nonexistent partner" and
leaves the datastore entirely unchanged. -/
theorem requestPartner_nonexistent (verify : String → Option Claims)
    (authHeader : String) (db : Datastore) (c : Claims) (em : String)
    (hv : verify (extractToken authHeader) = some c)
    (hno : ∀ u ∈ db.users, u.email ≠ em) :
    request_partner verify authHeader (some em) db =
      (⟨428, Body.text "Nonexistent partner"⟩, db) := by
  have hfind : db.users.find? (fun u => u.email == em) = none :=
    List.find?_eq_none.mpr (fun u hu => by simp [hno u hu])
  simp [request_partner, hv, hfind]

/-- C4: witness at a concrete verifier and empty datastore. -/
theorem requestPartner_nonexistent_witness :
    request_partner (fun t => if t = "TOK" then some ⟨"sub1", some "alice@x", some "Alice"⟩ else none)
        "Bearer TOK" (some "ghost@x") ⟨[], [], [], [], 0⟩ =
      (⟨428, Body.text "Nonexistent partner"⟩, ⟨[], [], [], [], 0⟩) :=
  requestPartner_nonexistent _ "Bearer TOK" _ _ "ghost@x" rfl (by decide)

/-- C5: an authenticated get-partner call whose caller email matches
neither partner field of any Relationship record returns status 200 with
an empty body, the datastore unchanged. -/
theorem getPartner_none_empty (verify : String → Option Claims)
    (authHeader : String) (db : Datastore) (c : Claims) (em : String)
    (hv : verify (extractToken authHeader) = some c)
    (he : c.email = some em)
    (hno : ∀ r ∈ db.relationships, r.partner1 ≠ em ∧ r.partner2 ≠ em) :
    get_partner verify authHeader db = (⟨200, Body.text ""⟩, db) := by
  have hfind : db.relationships.find?
      (fun r => r.partner1 == em || r.partner2 == em) = none :=
    List.find?_eq_none.mpr (fun r hr => by simp [(hno r hr).1, (hno r hr).2])
  simp [get_partner, hv, he, hfind]

/-- C5: witness at a concrete verifier and a datastore holding an
unrelated relationship. -/
theorem getPartner_none_empty_witness :
    get_partner (fun t => if t = "TOK" then some ⟨"sub1", some "alice@x", some "Alice"⟩ else none)
        "Bearer TOK" ⟨[], [], [], [⟨"c@x", "d@x", 0⟩], 1⟩ =
      (⟨200, Body.text ""⟩, ⟨[], [], [], [⟨"c@x", "d@x", 0⟩], 1⟩) :=
  getPartner_none_empty _ "Bearer TOK" _ _ "alice@x" rfl rfl (by decide)

/-- C10: when a User with the caller's subject id already exists, add-user
returns 200 "Added user" and leaves the datastore exactly as it was: the
existing record's name, email, uid and createdAt are untouched even when
the verified claims carry different values, and no other record changes. -/
theorem addUser_existing_noop (verify : String → Option Claims)
    (authHeader : String) (db : Datastore) (c : Claims)
    (hv : verify (extractToken authHeader) = some c)
    (hex : ∃ u ∈ db.users, u.uid = c.sub) :
    add_user verify authHeader db = (⟨200, Body.text "Added user"⟩, db) :=
  addUser_existing_unchanged verify authHeader db c hv hex

/-- C10: witness where the stored record's name and email differ from the
claims' values. -/
theorem addUser_existing_noop_witness :
    add_user (fun t => if t = "TOK" then some ⟨"sub1", some "new@x", some "NewName"⟩ else none)
        "Bearer TOK" ⟨[⟨"Old", "old@x", "sub1", 0⟩], [], [], [], 1⟩ =
      (⟨200, Body.text "Added user"⟩,
       ⟨[⟨"Old", "old@x", "sub1", 0⟩], [], [], [], 1⟩) :=
  addUser_existing_noop _ "Bearer TOK" _ ⟨"sub1", some "new@x", some "NewName"⟩
    rfl (by decide)

/-- C7: an authenticated add-note call with a message body creates exactly
one Note, keyed under the caller's subject id, carrying the given message,
with friendlyId equal to claims.name when present, else claims.email when
present, else "Unknown"; the handler returns 200 and touches nothing
else. -/
theorem addNote_creates_note (verify : String → Option Claims)
    (authHeader : String) (db : Datastore) (c : Claims) (msg : String)
    (hv : verify (extractToken authHeader) = some c) :
    add_note verify authHeader (some msg) db =
      (⟨200, Body.text "OK"⟩,
       { db with
         notes := db.notes ++
           [⟨c.sub,
             match c.name with
             | some nm => nm
             | none =>
               match c.email with
               | some em => em
               | none => "Unknown",
             msg, db.time⟩],
         time := db.time + 1 }) := by
  cases hn : c.name <;> cases he : c.email <;>
    simp [add_note, hv, hn, he, Option.getD]

/-- C7: witness with claims carrying no name and no email, so friendlyId
falls back to "Unknown". -/
theorem addNote_creates_note_witness :
    add_note (fun t => if t = "TOK" then some ⟨"sub1", none, none⟩ else none)
        "Bearer TOK" (some "hello") ⟨[], [], [], [], 5⟩ =
      (⟨200, Body.text "OK"⟩,
       ⟨[], [⟨"sub1", "Unknown", "hello", 5⟩], [], [], 6⟩) :=
  addNote_creates_note _ "Bearer TOK" ⟨[], [], [], [], 5⟩ ⟨"sub1", none, none⟩
    "hello" rfl

instance : IsTotal NoteRec createdGe :=
  ⟨fun a b => Nat.le_total b.created a.created⟩

instance : IsTrans NoteRec createdGe :=
  ⟨fun _ _ _ hab hbc => Nat.le_trans hbc hab⟩

theorem addUserN_noop (verify : String → Option Claims)
    (authHeader : String) (db : Datastore) (c : Claims)
    (hv : verify (extractToken authHeader) = some c)
    (hex : ∃ u ∈ db.users, u.uid = c.sub) (n : Nat) :
    addUserN verify authHeader n db = db := by
  induction n with
  | zero => rfl
  | succ n ih =>
    show (add_user verify authHeader (addUserN verify authHeader n db)).2 = db
    rw [ih, addUser_existing_unchanged verify authHeader db c hv hex]

/-- C3: add-user is idempotent in the User table — starting from a store
with no User for the caller's subject id, after any positive number of
calls with the same verified identity exactly one User record with that
uid exists, and every call (the (n+1)-st, for each n) returns 200 with
body "Added user". -/
theorem addUser_idempotent (verify : String → Option Claims)
    (authHeader : String) (db : Datastore) (c : Claims) (nm em : String)
    (hv : verify (extractToken authHeader) = some c)
    (hn : c.name = some nm) (he : c.email = some em)
    (h0 : ∀ u ∈ db.users, u.uid ≠ c.sub) (n : Nat) :
    ((addUserN verify authHeader (n + 1) db).users.filter
      (fun u => u.uid == c.sub)).length = 1 ∧
    (add_user verify authHeader (addUserN verify authHeader n db)).1 =
      ⟨200, Body.text "Added user"⟩ := by
  have h1 := addUser_fresh verify authHeader db c nm em hv hn he h0
  set db1 : Datastore :=
    { db with users := db.users ++ [⟨nm, em, c.sub, db.time⟩],
              time := db.time + 1 } with hdb1
  have hex1 : ∃ u ∈ db1.users, u.uid = c.sub :=
    ⟨⟨nm, em, c.sub, db.time⟩, by simp [hdb1], rfl⟩
  have hstep : ∀ m, addUserN verify authHeader (m + 1) db = db1 := by
    intro m
    induction m with
    | zero =>
      show (add_user verify authHeader (addUserN verify authHeader 0 db)).2 = db1
      rw [show addUserN verify authHeader 0 db = db from rfl, h1]
    | succ k ih =>
      show (add_user verify authHeader (addUserN verify authHeader (k + 1) db)).2 = db1
      rw [ih, addUser_existing_unchanged verify authHeader db1 c hv hex1]
  constructor
  · rw [hstep n, hdb1]
    have hnil : db.users.filter (fun u => u.uid == c.sub) = [] :=
      List.filter_eq_nil_iff.mpr (fun u hu => by simp [h0 u hu])
    simp [hnil]
  · cases n with
    | zero =>
      rw [show addUserN verify authHeader 0 db = db from rfl, h1]
    | succ m =>
      rw [hstep m, addUser_existing_unchanged verify authHeader db1 c hv hex1]

/-- C3: witness — two calls on an empty store leave exactly one User with
the claims' subject id, and the second call returns 200 "Added user". -/
theorem addUser_idempotent_witness :
    ((addUserN (fun t => if t = "TOK" then some ⟨"sub1", some "alice@x", some "Alice"⟩ else none)
        "Bearer TOK" 2 ⟨[], [], [], [], 0⟩).users.filter
      (fun u => u.uid == "sub1")).length = 1 ∧
    (add_user (fun t => if t = "TOK" then some ⟨"sub1", some "alice@x", some "Alice"⟩ else none)
        "Bearer TOK"
        (addUserN (fun t => if t = "TOK" then some ⟨"sub1", some "alice@x", some "Alice"⟩ else none)
          "Bearer TOK" 1 ⟨[], [], [], [], 0⟩)).1 =
      ⟨200, Body.text "Added user"⟩ :=
  addUser_idempotent _ "Bearer TOK" ⟨[], [], [], [], 0⟩
    ⟨"sub1", some "alice@x", some "Alice"⟩ "Alice" "alice@x" rfl rfl rfl
    (by decide) 1

/-- C6: an authenticated list-notes call returns 200 with a JSON array
holding exactly the Note records whose ancestor key is the caller's
subject id (a permutation of the owner-filtered store, so notes under a
different ancestor never appear, and the array is empty when the caller
owns no notes), ordered by creation time descending; the datastore is
unchanged. -/
theorem listNotes_owner_sorted (verify : String → Option Claims)
    (authHeader : String) (db : Datastore) (c : Claims)
    (hv : verify (extractToken authHeader) = some c) :
    ∃ msgs : List NoteMsg,
      list_notes verify authHeader db = (⟨200, Body.jsonNotes msgs⟩, db) ∧
      msgs.Perm ((db.notes.filter (fun nt => nt.owner == c.sub)).map
        (fun nt => ⟨nt.friendly_id, nt.message, nt.created⟩)) ∧
      msgs.Pairwise (fun x y => y.created ≤ x.created) := by
  refine ⟨query_database db c.sub, by simp [list_notes, hv], ?_, ?_⟩
  · exact ((List.perm_insertionSort createdGe
      (db.notes.filter (fun nt => nt.owner == c.sub)))).map _
  · have hs := List.sorted_insertionSort createdGe
      (db.notes.filter (fun nt => nt.owner == c.sub))
    exact List.pairwise_map.mpr hs

/-- C6: witness on a store holding two notes of the caller and one note of
another user. -/
theorem listNotes_owner_sorted_witness :
    ∃ msgs : List NoteMsg,
      list_notes (fun t => if t = "TOK" then some ⟨"sub1", some "alice@x", some "Alice"⟩ else none)
        "Bearer TOK"
        ⟨[], [⟨"sub1", "f", "m1", 0⟩, ⟨"sub2", "g", "m2", 1⟩,
              ⟨"sub1", "f", "m3", 2⟩], [], [], 3⟩ =
        (⟨200, Body.jsonNotes msgs⟩,
         ⟨[], [⟨"sub1", "f", "m1", 0⟩, ⟨"sub2", "g", "m2", 1⟩,
               ⟨"sub1", "f", "m3", 2⟩], [], [], 3⟩) ∧
      msgs.Perm (([⟨"sub1", "f", "m1", 0⟩, ⟨"sub2", "g", "m2", 1⟩,
          (⟨"sub1", "f", "m3", 2⟩ : NoteRec)].filter
            (fun nt => nt.owner == "sub1")).map
        (fun nt => ⟨nt.friendly_id, nt.message, nt.created⟩)) ∧
      msgs.Pairwise (fun x y => y.created ≤ x.created) :=
  listNotes_owner_sorted _ "Bearer TOK" _
    ⟨"sub1", some "alice@x", some "Alice"⟩ rfl

/-- C9: an authenticated request-partner call naming the caller's own
registered email creates, in that single call, both the PartnerRequest row
(asker = receiver = the email) and a Relationship with
partner1 = partner2 = that email, because the reciprocal query is
satisfied by the just-inserted row; the call returns 200. -/
theorem selfRequest_creates_relationship (verify : String → Option Claims)
    (authHeader : String) (db : Datastore) (c : Claims) (e : String)
    (hv : verify (extractToken authHeader) = some c)
    (he : c.email = some e)
    (hu : ∃ u ∈ db.users, u.email = e) :
    request_partner verify authHeader (some e) db =
      (⟨200, Body.text "OK"⟩,
       { db with
         partnerRequests := db.partnerRequests ++ [⟨e, e, db.time⟩],
         relationships := db.relationships ++ [⟨e, e, db.time + 1⟩],
         time := db.time + 2 }) := by
  obtain ⟨u, hmem, hem⟩ := hu
  have husers : (db.users.find? (fun u => u.email == e)).isSome :=
    List.find?_isSome.mpr ⟨u, hmem, by simp [hem]⟩
  obtain ⟨u', hfind⟩ := Option.isSome_iff_exists.mp husers
  have hsingle : List.find? (fun pr => pr.asker == e && pr.receiver == e)
      ([⟨e, e, db.time⟩] : List PartnerRequestRec) = some ⟨e, e, db.time⟩ := by
    simp
  simp only [request_partner, hv, he, hfind, List.find?_append, hsingle,
    ite_self]
  cases hor : (db.partnerRequests.find?
      (fun pr => pr.asker == e && pr.receiver == e)).or
      (some ⟨e, e, db.time⟩) with
  | none =>
    cases hnone : db.partnerRequests.find?
        (fun pr => pr.asker == e && pr.receiver == e) <;>
      rw [hnone] at hor <;> simp [Option.or] at hor
  | some val => rfl

/-- C9: witness — a registered user self-requests and one call creates the
degenerate relationship. -/
theorem selfRequest_creates_relationship_witness :
    request_partner (fun t => if t = "TOK" then some ⟨"sub1", some "alice@x", some "Alice"⟩ else none)
        "Bearer TOK" (some "alice@x")
        ⟨[⟨"Alice", "alice@x", "sub1", 0⟩], [], [], [], 1⟩ =
      (⟨200, Body.text "OK"⟩,
       ⟨[⟨"Alice", "alice@x", "sub1", 0⟩], [],
        [⟨"alice@x", "alice@x", 1⟩], [⟨"alice@x", "alice@x", 2⟩], 3⟩) :=
  selfRequest_creates_relationship _ "Bearer TOK" _
    ⟨"sub1", some "alice@x", some "Alice"⟩ "alice@x" rfl rfl (by decide)

/-- C2: starting from a store holding registered users with emails `a` and
`b`, no PartnerRequest between them and no Relationship mentioning them,
request-partner(A→B) followed by request-partner(B→A) returns 200 on both
calls and creates exactly one Relationship record, whose partner1 and
partner2 fields are the two emails sorted so that partner1 < partner2
lexicographically. -/
theorem reciprocal_requests_create_relationship
    (verify : String → Option Claims) (hdrA hdrB : String) (db : Datastore)
    (cA cB : Claims) (a b : String)
    (hvA : verify (extractToken hdrA) = some cA)
    (hvB : verify (extractToken hdrB) = some cB)
    (heA : cA.email = some a) (heB : cB.email = some b) (hab : a ≠ b)
    (huA : ∃ u ∈ db.users, u.email = a) (huB : ∃ u ∈ db.users, u.email = b)
    (hnoPR : ∀ pr ∈ db.partnerRequests,
      ¬(pr.asker = a ∧ pr.receiver = b) ∧ ¬(pr.asker = b ∧ pr.receiver = a))
    (hnoRel : ∀ r ∈ db.relationships,
      r.partner1 ≠ a ∧ r.partner1 ≠ b ∧ r.partner2 ≠ a ∧ r.partner2 ≠ b) :
    (request_partner verify hdrA (some b) db).1 = ⟨200, Body.text "OK"⟩ ∧
    (request_partner verify hdrB (some a)
      (request_partner verify hdrA (some b) db).2).1 =
        ⟨200, Body.text "OK"⟩ ∧
    (request_partner verify hdrB (some a)
      (request_partner verify hdrA (some b) db).2).2.relationships =
      db.relationships ++
        [⟨if a ≤ b then a else b, if a ≤ b then b else a, db.time + 2⟩] ∧
    ((request_partner verify hdrB (some a)
      (request_partner verify hdrA (some b) db).2).2.relationships.filter
        (fun r => r.partner1 == a || r.partner1 == b ||
                  r.partner2 == a || r.partner2 == b)).length = 1 ∧
    (if a ≤ b then a else b) < (if a ≤ b then b else a) := by
  obtain ⟨uB, hmB, hemB⟩ := huB
  have hfindB : (db.users.find? (fun u => u.email == b)).isSome :=
    List.find?_isSome.mpr ⟨uB, hmB, by simp [hemB]⟩
  obtain ⟨uB', hfindBeq⟩ := Option.isSome_iff_exists.mp hfindB
  obtain ⟨uA, hmA, hemA⟩ := huA
  have hfindA : (db.users.find? (fun u => u.email == a)).isSome :=
    List.find?_isSome.mpr ⟨uA, hmA, by simp [hemA]⟩
  obtain ⟨uA', hfindAeq⟩ := Option.isSome_iff_exists.mp hfindA
  have hrec1db : db.partnerRequests.find?
      (fun pr => pr.asker == b && pr.receiver == a) = none :=
    List.find?_eq_none.mpr (fun pr hpr => by
      simp only [Bool.and_eq_true, beq_iff_eq, not_and]
      exact fun h1 h2 => (hnoPR pr hpr).2 ⟨h1, h2⟩)
  have hrec1single : List.find? (fun pr => pr.asker == b && pr.receiver == a)
      ([⟨a, b, db.time⟩] : List PartnerRequestRec) = none := by
    simp [hab]
  have h1 : request_partner verify hdrA (some b) db =
      (⟨200, Body.text "OK"⟩,
       { db with partnerRequests := db.partnerRequests ++ [⟨a, b, db.time⟩],
                 time := db.time + 1 }) := by
    simp [request_partner, hvA, heA, hfindBeq, List.find?_append,
      hrec1db, hrec1single]
  have hrec2db : db.partnerRequests.find?
      (fun pr => pr.asker == a && pr.receiver == b) = none :=
    List.find?_eq_none.mpr (fun pr hpr => by
      simp only [Bool.and_eq_true, beq_iff_eq, not_and]
      exact fun h1 h2 => (hnoPR pr hpr).1 ⟨h1, h2⟩)
  have hrec2single : List.find? (fun pr => pr.asker == a && pr.receiver == b)
      ([⟨a, b, db.time⟩] : List PartnerRequestRec) = some ⟨a, b, db.time⟩ := by
    simp
  have h2 : request_partner verify hdrB (some a)
      { db with partnerRequests := db.partnerRequests ++ [⟨a, b, db.time⟩],
                time := db.time + 1 } =
      (⟨200, Body.text "OK"⟩,
       { db with
         partnerRequests := db.partnerRequests ++ [⟨a, b, db.time⟩] ++
           [⟨b, a, db.time + 1⟩],
         relationships := db.relationships ++
           [⟨if a ≤ b then a else b, if a ≤ b then b else a, db.time + 2⟩],
         time := db.time + 3 }) := by
    simp [request_partner, hvB, heB, hfindAeq, List.find?_append,
      hrec2db, hrec2single]
  have hfull : request_partner verify hdrB (some a)
      (request_partner verify hdrA (some b) db).2 =
      (⟨200, Body.text "OK"⟩,
       { db with
         partnerRequests := db.partnerRequests ++ [⟨a, b, db.time⟩] ++
           [⟨b, a, db.time + 1⟩],
         relationships := db.relationships ++
           [⟨if a ≤ b then a else b, if a ≤ b then b else a, db.time + 2⟩],
         time := db.time + 3 }) := by
    rw [h1]; exact h2
  have hfilnil : db.relationships.filter
      (fun r => r.partner1 == a || r.partner1 == b ||
                r.partner2 == a || r.partner2 == b) = [] :=
    List.filter_eq_nil_iff.mpr (fun r hr => by
      simp [(hnoRel r hr).1, (hnoRel r hr).2.1, (hnoRel r hr).2.2.1,
        (hnoRel r hr).2.2.2])
  refine ⟨by rw [h1], by rw [hfull], by rw [hfull], ?_, ?_⟩
  · rw [hfull]
    rcases le_or_lt a b with hle | hlt
    · rw [if_pos hle, if_pos hle]
      simp [List.filter_append, hfilnil]
    · rw [if_neg (not_le.mpr hlt), if_neg (not_le.mpr hlt)]
      simp [List.filter_append, hfilnil]
  · rcases lt_or_gt_of_ne hab with h | h
    · rw [if_pos (le_of_lt h), if_pos (le_of_lt h)]; exact h
    · rw [if_neg (not_le.mpr h), if_neg (not_le.mpr h)]; exact h

/-- C2: witness — Alice and Bob registered, Alice asks Bob then Bob asks
Alice; the lexicographically sorted relationship appears exactly once. -/
theorem reciprocal_requests_create_relationship_witness :
    (request_partner
      (fun t => if t = "TA" then some ⟨"sub1", some "alice@x", some "Alice"⟩
        else if t = "TB" then some ⟨"sub2", some "bob@x", some "Bob"⟩
        else none)
      "Bearer TA" (some "bob@x")
      ⟨[⟨"Alice", "alice@x", "sub1", 0⟩, ⟨"Bob", "bob@x", "sub2", 0⟩],
       [], [], [], 1⟩).1 = ⟨200, Body.text "OK"⟩ ∧
    (request_partner
      (fun t => if t = "TA" then some ⟨"sub1", some "alice@x", some "Alice"⟩
        else if t = "TB" then some ⟨"sub2", some "bob@x", some "Bob"⟩
        else none)
      "Bearer TB" (some "alice@x")
      (request_partner
        (fun t => if t = "TA" then some ⟨"sub1", some "alice@x", some "Alice"⟩
          else if t = "TB" then some ⟨"sub2", some "bob@x", some "Bob"⟩
          else none)
        "Bearer TA" (some "bob@x")
        ⟨[⟨"Alice", "alice@x", "sub1", 0⟩, ⟨"Bob", "bob@x", "sub2", 0⟩],
         [], [], [], 1⟩).2).1 = ⟨200, Body.text "OK"⟩ ∧
    (request_partner
      (fun t => if t = "TA" then some ⟨"sub1", some "alice@x", some "Alice"⟩
        else if t = "TB" then some ⟨"sub2", some "bob@x", some "Bob"⟩
        else none)
      "Bearer TB" (some "alice@x")
      (request_partner
        (fun t => if t = "TA" then some ⟨"sub1", some "alice@x", some "Alice"⟩
          else if t = "TB" then some ⟨"sub2", some "bob@x", some "Bob"⟩
          else none)
        "Bearer TA" (some "bob@x")
        ⟨[⟨"Alice", "alice@x", "sub1", 0⟩, ⟨"Bob", "bob@x", "sub2", 0⟩],
         [], [], [], 1⟩).2).2.relationships =
      [] ++ [⟨if "alice@x" ≤ "bob@x" then "alice@x" else "bob@x",
              if "alice@x" ≤ "bob@x" then "bob@x" else "alice@x", 1 + 2⟩] ∧
    ((request_partner
      (fun t => if t = "TA" then some ⟨"sub1", some "alice@x", some "Alice"⟩
        else if t = "TB" then some ⟨"sub2", some "bob@x", some "Bob"⟩
        else none)
      "Bearer TB" (some "alice@x")
      (request_partner
        (fun t => if t = "TA" then some ⟨"sub1", some "alice@x", some "Alice"⟩
          else if t = "TB" then some ⟨"sub2", some "bob@x", some "Bob"⟩
          else none)
        "Bearer TA" (some "bob@x")
        ⟨[⟨"Alice", "alice@x", "sub1", 0⟩, ⟨"Bob", "bob@x", "sub2", 0⟩],
         [], [], [], 1⟩).2).2.relationships.filter
      (fun r => r.partner1 == "alice@x" || r.partner1 == "bob@x" ||
                r.partner2 == "alice@x" || r.partner2 == "bob@x")).length = 1 ∧
    (if "alice@x" ≤ "bob@x" then "alice@x" else "bob@x") <
      (if "alice@x" ≤ "bob@x" then "bob@x" else "alice@x") :=
  reciprocal_requests_create_relationship
    (fun t => if t = "TA" then some ⟨"sub1", some "alice@x", some "Alice"⟩
      else if t = "TB" then some ⟨"sub2", some "bob@x", some "Bob"⟩
      else none)
    "Bearer TA" "Bearer TB"
    ⟨[⟨"Alice", "alice@x", "sub1", 0⟩, ⟨"Bob", "bob@x", "sub2", 0⟩],
     [], [], [], 1⟩
    ⟨"sub1", some "alice@x", some "Alice"⟩ ⟨"sub2", some "bob@x", some "Bob"⟩
    "alice@x" "bob@x" rfl rfl rfl rfl (by decide) (by decide) (by decide)
    (by decide) (by decide)

theorem splitPred_ne_nil (p : Char → Bool) (l : List Char) :
    splitPred p l ≠ [] := by
  induction l with
  | nil => simp [splitPred]
  | cons c cs ih =>
    unfold splitPred
    cases hsp : splitPred p cs with
    | nil => cases hpc : p c <;> simp
    | cons t ts => cases hpc : p c <;> simp

theorem splitPred_congr (p q : Char → Bool) (l : List Char)
    (h : ∀ c ∈ l, p c = q c) : splitPred p l = splitPred q l := by
  induction l with
  | nil => rfl
  | cons c cs ih =>
    have hc := h c (List.mem_cons_self c cs)
    have ih' := ih (fun d hd => h d (List.mem_cons_of_mem c hd))
    unfold splitPred
    rw [ih', hc]

theorem splitPred_getLast_ne_nil (p : Char → Bool) (l : List Char) (c : Char)
    (hl : l.getLast? = some c) (hpc : p c = false) :
    ∀ t, (splitPred p l).getLast? = some t → t ≠ [] := by
  induction l with
  | nil => simp at hl
  | cons d ds ih =>
    cases ds with
    | nil =>
      simp only [List.getLast?_singleton, Option.some_inj] at hl
      subst hl
      intro t ht
      simp only [splitPred, hpc] at ht
      simp only [List.getLast?_singleton, Option.some_inj] at ht
      subst ht
      simp
    | cons e es =>
      rw [List.getLast?_cons_cons] at hl
      have ih' := ih hl
      intro t ht
      unfold splitPred at ht
      cases hsp : splitPred p (e :: es) with
      | nil => exact absurd hsp (splitPred_ne_nil p (e :: es))
      | cons u us =>
        rw [hsp] at ih' ht
        cases hpd : p d with
        | true =>
          rw [hpd] at ht
          rw [List.getLast?_cons_cons] at ht
          exact ih' t ht
        | false =>
          rw [hpd] at ht
          cases us with
          | nil =>
            simp only [List.getLast?_singleton, Option.some_inj] at ht
            subst ht
            simp
          | cons w ws =>
            rw [List.getLast?_cons_cons] at ht
            exact ih' t (by rw [List.getLast?_cons_cons]; exact ht)

theorem filter_getLastD_of_last_ne (S : List (List Char))
    (hne : ∀ t, S.getLast? = some t → t ≠ []) :
    (S.filter (fun t => t ≠ [])).getLastD [] = S.getLastD [] := by
  induction S with
  | nil => rfl
  | cons t S' ih =>
    cases S' with
    | nil =>
      have ht : t ≠ [] := hne t (by simp)
      simp [List.filter, ht]
    | cons u S'' =>
      have hne' : ∀ x, (u :: S'').getLast? = some x → x ≠ [] := by
        intro x hx
        exact hne x (by rw [List.getLast?_cons_cons]; exact hx)
      have ih' := ih hne'
      have hFne : (u :: S'').filter (fun x => x ≠ []) ≠ [] := by
        have hlast := hne' ((u :: S'').getLast (by simp))
          (List.getLast?_eq_getLast (u :: S'') (by simp))
        exact List.ne_nil_of_mem (List.mem_filter.mpr
          ⟨List.getLast_mem (by simp), by simp [hlast]⟩)
      have hRHS : (t :: u :: S'').getLastD [] = S''.getLastD u := by
        rw [List.getLastD_cons, List.getLastD_cons]
      have hih2 : ((u :: S'').filter (fun x => x ≠ [])).getLastD [] =
          S''.getLastD u := by
        rw [ih', List.getLastD_cons]
      rw [hRHS, ← hih2]
      by_cases htn : t = []
      · rw [show (t :: u :: S'').filter (fun x => x ≠ []) =
          (u :: S'').filter (fun x => x ≠ []) from by simp [List.filter, htn]]
      · rw [show (t :: u :: S'').filter (fun x => x ≠ []) =
          t :: (u :: S'').filter (fun x => x ≠ []) from by simp [List.filter, htn]]
        cases hF : (u :: S'').filter (fun x => x ≠ []) with
        | nil => exact absurd hF hFne
        | cons f fs => simp [List.getLastD_cons]

/-- C8 (amended): every handler passes to verification exactly the last
field obtained by splitting the Authorization header on single space
characters (`extractToken`); whenever the header's only whitespace
characters are spaces and the header does not end with a space, that field
coincides with the last whitespace-separated token.  (In general they
differ: a tab is not a separator for `split(' ')`, and a trailing space
makes the extracted field empty.) -/
theorem lastToken_extraction (s : String) :
    ((∀ c ∈ s.data, c.isWhitespace → c = ' ') →
      s.data.getLast? ≠ some ' ' →
      extractToken s = lastWhitespaceToken s) ∧
    (∀ (v₁ v₂ : String → Option Claims) (db : Datastore)
      (partnerField messageField : Option String),
      v₁ (extractToken s) = v₂ (extractToken s) →
      add_user v₁ s db = add_user v₂ s db ∧
      get_partner v₁ s db = get_partner v₂ s db ∧
      request_partner v₁ s partnerField db =
        request_partner v₂ s partnerField db ∧
      list_notes v₁ s db = list_notes v₂ s db ∧
      add_note v₁ s messageField db = add_note v₂ s messageField db) := by
  constructor
  · intro hws hnt
    have hpq : ∀ c ∈ s.data, c.isWhitespace = (c == ' ') := by
      intro c hc
      by_cases hcsp : c = ' '
      · subst hcsp; rfl
      · have h1 : (c == ' ') = false := by simp [hcsp]
        have h2 : c.isWhitespace = false := by
          cases hw : c.isWhitespace
          · rfl
          · exact absurd (hws c hc hw) hcsp
        rw [h1, h2]
    unfold extractToken lastWhitespaceToken splitChar
    refine congrArg String.mk ?_
    rw [splitPred_congr (fun c => c.isWhitespace) (fun c => c == ' ')
      s.data hpq]
    cases hd : s.data with
    | nil => rfl
    | cons c cs =>
      rw [hd] at hnt
      have hlast : (c :: cs).getLast? = some ((c :: cs).getLast (by simp)) :=
        List.getLast?_eq_getLast (c :: cs) (by simp)
      have hne2 : ((c :: cs).getLast (by simp)) ≠ ' ' := fun hsp =>
        hnt (by rw [hlast, hsp])
      have hpfalse : (((c :: cs).getLast (by simp)) == ' ') = false := by
        simp [hne2]
      exact (filter_getLastD_of_last_ne _
        (splitPred_getLast_ne_nil (fun c => c == ' ') (c :: cs) _
          hlast hpfalse)).symm
  · intro v₁ v₂ db partnerField messageField h12
    refine ⟨?_, ?_, ?_, ?_, ?_⟩
    · simp only [add_user]; rw [h12]
    · simp only [get_partner]; rw [h12]
    · simp only [request_partner]; rw [h12]
    · simp only [list_notes]; rw [h12]
    · simp only [add_note]; rw [h12]

/-- C8 counterexample: on the header value "Bearer\tTOK" the code's
extraction is the whole string (Python `split(' ')` does not split on a
tab), not the last whitespace-separated token "TOK"; consequently a
verifier that accepts exactly "TOK" is handed the wrong credential and
add-user answers 401. -/
theorem lastToken_extraction_counterexample :
    extractToken "Bearer\tTOK" ≠ lastWhitespaceToken "Bearer\tTOK" ∧
    extractToken "Bearer\tTOK" = "Bearer\tTOK" ∧
    lastWhitespaceToken "Bearer\tTOK" = "TOK" ∧
    add_user
      (fun t => if t = "TOK" then some ⟨"sub1", some "alice@x", some "Alice"⟩
        else none)
      "Bearer\tTOK" ⟨[], [], [], [], 0⟩ =
      (⟨401, Body.text "Unauthorized"⟩, ⟨[], [], [], [], 0⟩) := by
  refine ⟨by decide, by decide, by decide, rfl⟩

/-- C8: witness — on a well-formed header the extraction equals the last
whitespace-separated token, and a handler's outcome depends on the
verifier only through that token. -/
theorem lastToken_extraction_witness :
    extractToken "Bearer TOK" = lastWhitespaceToken "Bearer TOK" ∧
    add_user
      (fun t => if t = "TOK" then some ⟨"sub1", some "alice@x", some "Alice"⟩
        else none) "Bearer TOK" ⟨[], [], [], [], 0⟩ =
      add_user (fun _ => some ⟨"sub1", some "alice@x", some "Alice"⟩)
        "Bearer TOK" ⟨[], [], [], [], 0⟩ :=
  ⟨(lastToken_extraction "Bearer TOK").1 (by decide) (by decide),
   ((lastToken_extraction "Bearer TOK").2
     (fun t => if t = "TOK" then some ⟨"sub1", some "alice@x", some "Alice"⟩
       else none)
     (fun _ => some ⟨"sub1", some "alice@x", some "Alice"⟩)
     ⟨[], [], [], [], 0⟩ none none (by decide)).1⟩
